import Mathlib

/-!
Verification of the dynamic batching scheduler of BoringServer.

Shallow embedding of:
- `src/engine/queue.py` (`RequestQueue`: `put`, `get_batch`, `depth`, `get_metrics`),
- `src/service.py` (`ModelWorker.__init__` batch configuration, and the
  batch-processing section of `ModelWorker._scheduler`, lines 153-185),
- `src/engine/config.py` (`ModelsConfig` defaults).

Abstractions used throughout (noted once here):
- Opaque Python values (payload dicts, model outputs, request ids) are `Nat`.
- Wall-clock readings (`time.time()`) are `ℚ`; the scheduler samples the clock
  once per request when building responses, so the clock is a function
  `Nat → ℚ` giving the reading at the i-th sample of the success loop.
- An `asyncio.Future` is a four-state value: `pending` (never set),
  `resolved` (`set_result` called), `failed` (`set_exception` called), and
  `cancelled` (the waiter's `asyncio.wait_for` timed out and cancelled it).
  `done()` is true in every state but `pending`; `set_result` on a done
  future raises `asyncio.InvalidStateError`.
- Blocking in `get_batch` is abstracted by an `arrival` parameter: when the
  queue is empty, `some r` means a request was admitted before `timeout_s`
  elapsed, `none` means the wait timed out.
-/

namespace BoringServer

/-- Errors observable inside the scheduler loop. `encodeError` stands for an
arbitrary exception raised by `model.encode` (tagged by a `Nat`);
`invalidState` is `asyncio.InvalidStateError`, raised by `Future.set_result`
on a future that is already done. -/
inductive PyErr where
  | encodeError (tag : Nat)
  | invalidState
deriving DecidableEq

/-- `InferenceResponse` from `src/engine/types.py` (fields in source order;
the `metadata` dict, never touched by the scheduler, is omitted). -/
structure InferenceResponse where
  output : Nat
  request_id : Nat
  processing_time_ms : ℚ
  batch_size : Nat
deriving DecidableEq

/-- State of a request's one-shot completion future. -/
inductive FutureState where
  | pending
  | resolved (resp : InferenceResponse)
  | failed (e : PyErr)
  | cancelled
deriving DecidableEq

/-- `asyncio.Future.done()`: true unless the future is still pending. -/
def FutureState.done : FutureState → Bool
  | .pending => false
  | _ => true

/-- `InferenceRequest` from `src/engine/types.py` (fields in source order;
`metadata` omitted as above). -/
structure InferenceRequest where
  payload : Nat
  future : FutureState
  request_id : Nat
  enqueue_ts : ℚ
deriving DecidableEq

/-- The metric calls the scheduler makes (`src/engine/metrics.py`):
`record_request(status, duration)` appends to `requests`;
`record_error(error_type)` appends to `errors`. Counters are the lengths of
the corresponding filtered lists. -/
structure Metrics where
  requests : List (String × ℚ)
  errors : List String
deriving DecidableEq

/-- The success loop of `ModelWorker._scheduler` (`src/service.py:160-171`):
`for req, output in zip(batch, outputs)` — compute
`processing_time = (time.time() - req.enqueue_ts) * 1000`, build an
`InferenceResponse` with `batch_size = bsize`, call `req.future.set_result`,
then `record_request("success", processing_time / 1000)`.
`set_result` on a done future raises `InvalidStateError`, which aborts the
loop; requests already handled keep their results, the rest are untouched.
`i` indexes the clock samples; `zip` stops at the shorter list. -/
def goFire (now : Nat → ℚ) (bsize : Nat) :
    Nat → List InferenceRequest → List Nat →
    List InferenceRequest × List (String × ℚ) × Option PyErr
  | _, [], _ => ([], [], none)
  | _, r :: rs, [] => (r :: rs, [], none)
  | i, r :: rs, o :: os =>
    if r.future.done then (r :: rs, [], some PyErr.invalidState)
    else
      let pt : ℚ := (now i - r.enqueue_ts) * 1000
      let rest := goFire now bsize (i + 1) rs os
      ({ r with future := FutureState.resolved ⟨o, r.request_id, pt, bsize⟩ } :: rest.1,
       ("success", pt / 1000) :: rest.2.1,
       rest.2.2)

/-- The batch-failure handler of `ModelWorker._scheduler`
(`src/service.py:181-185`): for each request in the batch, if its future is
not done, `set_exception(e)` and `record_error("processing_error")`.
Returns the updated requests and the `record_error` calls made, in order. -/
def failBatch (e : PyErr) : List InferenceRequest → List InferenceRequest × List String
  | [] => ([], [])
  | r :: rs =>
    let rest := failBatch e rs
    if r.future.done then (r :: rest.1, rest.2)
    else ({ r with future := FutureState.failed e } :: rest.1,
          "processing_error" :: rest.2)

/-- One pass of the batch-processing section of `ModelWorker._scheduler`
(`src/service.py:153-185`). `encodeRes` is the outcome of
`self.model.encode([r.payload for r in batch])`: `.error e` if it raised,
`.ok outputs` otherwise. An `InvalidStateError` escaping the success loop is
caught by the same `except Exception` handler as an `encode` failure. -/
def processBatch (now : Nat → ℚ) (encodeRes : Except PyErr (List Nat))
    (batch : List InferenceRequest) (m : Metrics) :
    List InferenceRequest × Metrics :=
  match encodeRes with
  | .error e =>
    let fb := failBatch e batch
    (fb.1, { m with errors := m.errors ++ fb.2 })
  | .ok outputs =>
    let fire := goFire now batch.length 0 batch outputs
    let m1 := { m with requests := m.requests ++ fire.2.1 }
    match fire.2.2 with
    | none => (fire.1, m1)
    | some e =>
      let fb := failBatch e fire.1
      (fb.1, { m1 with errors := m1.errors ++ fb.2 })

/-- `QueueFullError` from `src/engine/exceptions.py`: raised by
`RequestQueue.put`, carrying `queue_depth` (the message is constant). -/
structure QueueFullError where
  queue_depth : Nat
deriving DecidableEq

/-- `RequestQueue` from `src/engine/queue.py:14-27`: an `asyncio.Queue`
(front of `items` is the head) plus the running counters. `maxsize` is a
Python `int` (may be zero or negative, in which case `asyncio.Queue` is
unbounded). -/
structure RequestQueue where
  maxsize : Int
  items : List InferenceRequest
  total_requests : Nat
  total_rejections : Nat
  total_timeouts : Nat
deriving DecidableEq

/-- `RequestQueue.depth` (`src/engine/queue.py:92-98`): `self.q.qsize()`. -/
def RequestQueue.depth (q : RequestQueue) : Nat :=
  q.items.length

/-- `asyncio.Queue.full()`: `False` when `maxsize <= 0` (unbounded),
otherwise `qsize() >= maxsize`. `put_nowait` raises exactly when this is
true. -/
def RequestQueue.full (q : RequestQueue) : Bool :=
  if q.maxsize ≤ 0 then false else decide (q.maxsize ≤ (q.items.length : Int))

/-- `RequestQueue.put` (`src/engine/queue.py:29-51`): `put_nowait`; on
success increment `_total_requests`; on `asyncio.QueueFull` increment
`_total_rejections` and raise `QueueFullError(queue_depth=self.depth())`.
Returns the updated queue and the raised error, if any. -/
def RequestQueue.put (q : RequestQueue) (r : InferenceRequest) :
    RequestQueue × Option QueueFullError :=
  if q.full then
    ({ q with total_rejections := q.total_rejections + 1 }, some ⟨q.depth⟩)
  else
    ({ q with items := q.items ++ [r], total_requests := q.total_requests + 1 },
     none)

/-- `RequestQueue.get_batch` (`src/engine/queue.py:53-90`): wait up to
`timeout_s` for a first request (on timeout increment `_total_timeouts` and
return `[]`), then `get_nowait` while `len(batch) < batch_size` until the
queue is empty. The blocking wait is abstracted by `arrival`: when the queue
is empty, `some r` is a request admitted before the timeout, `none` means
the timeout elapsed first. -/
def RequestQueue.get_batch (q : RequestQueue) (batch_size : Int)
    (timeout_s : ℚ) (arrival : Option InferenceRequest) :
    RequestQueue × List InferenceRequest :=
  match q.items, arrival with
  | [], none => ({ q with total_timeouts := q.total_timeouts + 1 }, [])
  | [], some r => (q, [r])
  | r :: rest, _ =>
    let extra := (batch_size - 1).toNat
    ({ q with items := rest.drop extra }, r :: rest.take extra)

/-- The queue metrics dictionary (`src/engine/queue.py:116-129`). -/
structure QueueMetricsReport where
  depth : Nat
  maxsize : Int
  total_requests : Nat
  total_rejections : Nat
  total_timeouts : Nat
  utilization : ℚ
deriving DecidableEq

/-- `RequestQueue.get_metrics` (`src/engine/queue.py:116-129`):
`utilization = depth / maxsize if maxsize > 0 else 0`. -/
def RequestQueue.get_metrics (q : RequestQueue) : QueueMetricsReport :=
  ⟨q.depth, q.maxsize, q.total_requests, q.total_rejections, q.total_timeouts,
   if 0 < q.maxsize then (q.depth : ℚ) / (q.maxsize : ℚ) else 0⟩

/-- `ModelsConfig` from `src/engine/config.py:72-78` (defaults 16, 0.003,
true). `default_batch_size` is a Python `int`. -/
structure ModelsConfig where
  default_batch_size : Int
  default_batch_wait_s : ℚ
  warmup_enabled : Bool
deriving DecidableEq

/-- The pydantic defaults of `ModelsConfig`. -/
def defaultModelsConfig : ModelsConfig :=
  ⟨16, 3 / 1000, true⟩

/-- The model capability as the worker sees it after
`validate_model_interface`: the values returned by `model.batch_size()` and
`model.batch_wait_s()` (arbitrary Python numbers). -/
structure ModelCapability where
  batch_size : Int
  batch_wait_s : ℚ
deriving DecidableEq

/-- The worker's active batch configuration (`self.batch_size`,
`self.batch_wait`). -/
structure WorkerBatchConfig where
  batch_size : Int
  batch_wait : ℚ
deriving DecidableEq

/-- The batch-configuration assignments of `ModelWorker.__init__`
(`src/service.py:76-77` then `112-113`): first the configured defaults, then
— unconditionally — the model-declared values. -/
def ModelWorker.initBatchConfig (cfg : ModelsConfig) (model : ModelCapability) :
    WorkerBatchConfig :=
  let s0 : WorkerBatchConfig := ⟨cfg.default_batch_size, cfg.default_batch_wait_s⟩
  let s1 := { s0 with batch_size := model.batch_size }
  { s1 with batch_wait := model.batch_wait_s }

/-! ## Helper lemmas -/

/-- On a batch whose futures are all pending, the success loop never hits a
done future: it zips requests with outputs positionally (stopping at the
shorter list), resolves each zipped request, records one success per zipped
request, leaves requests beyond the outputs untouched, and raises nothing. -/
theorem goFire_pending_eq (now : Nat → ℚ) (bsize : Nat)
    (batch : List InferenceRequest) :
    ∀ (k : Nat) (outputs : List Nat),
      (∀ r ∈ batch, r.future = FutureState.pending) →
      goFire now bsize k batch outputs =
        ((List.enumFrom k (batch.zip outputs)).map (fun p =>
            { p.2.1 with future := FutureState.resolved ⟨p.2.2, p.2.1.request_id, (now p.1 - p.2.1.enqueue_ts) * 1000, bsize⟩ }) ++
          batch.drop outputs.length,
         (List.enumFrom k (batch.zip outputs)).map (fun p =>
            ("success", ((now p.1 - p.2.1.enqueue_ts) * 1000) / 1000)),
         none) := by
  induction batch with
  | nil => intro k outputs hp; simp [goFire]
  | cons r rs ih =>
    intro k outputs hp
    cases outputs with
    | nil => simp [goFire]
    | cons o os =>
      have hr : r.future = FutureState.pending := hp r (by simp)
      have hrec := ih (k + 1) os (fun x hx => hp x (by simp [hx]))
      simp [goFire, hr, FutureState.done, hrec, List.enumFrom, List.zip]

/-- The failure handler fails exactly the not-yet-done requests with the
cause, leaves done requests untouched, and records one `processing_error`
per not-yet-done request. -/
theorem failBatch_eq (e : PyErr) (batch : List InferenceRequest) :
    failBatch e batch =
      (batch.map (fun r =>
          if r.future.done then r else { r with future := FutureState.failed e }),
       List.replicate (batch.countP (fun r => !r.future.done)) "processing_error") := by
  induction batch with
  | nil => simp [failBatch]
  | cons r rs ih =>
    by_cases h : r.future.done
    · simp [failBatch, h, ih, List.countP_cons]
    · simp [failBatch, h, ih, List.countP_cons, List.replicate_succ]

/-! ## Concrete fixtures -/

/-- A constant clock reading 10 at every sample. -/
def clock10 : Nat → ℚ := fun _ => 10

/-- Metrics sink with nothing recorded yet. -/
def emptyMetrics : Metrics := ⟨[], []⟩

/-- A pending request enqueued at time 0. -/
def reqA : InferenceRequest := ⟨11, FutureState.pending, 1, 0⟩

/-- A second pending request enqueued at time 0. -/
def reqB : InferenceRequest := ⟨12, FutureState.pending, 2, 0⟩

/-- A request whose waiter timed out: `asyncio.wait_for` cancelled its
future, so the future is done. -/
def reqAbandoned : InferenceRequest := ⟨13, FutureState.cancelled, 3, 0⟩

/-- A third pending request enqueued at time 0. -/
def reqC : InferenceRequest := ⟨14, FutureState.pending, 4, 0⟩

/-! ## Claims -/

/-- C1: for every batch (of still-pending requests) whose encode call
succeeds with exactly `len(batch)` outputs, the scheduler fires each
request's completion signal in admission order (position `i` of the result
is request `i` resolved) with a Response carrying that request's id,
`batch_size = len(batch)` and `processing_time_ms = now_i − enqueue_ts` in
milliseconds, and records one `success` request per item with duration
`processing_time_ms / 1000`, in the same order. -/
theorem scheduler_success_delivery (now : Nat → ℚ) (batch : List InferenceRequest)
    (outputs : List Nat) (m : Metrics)
    (hp : ∀ r ∈ batch, r.future = FutureState.pending)
    (hlen : outputs.length = batch.length) :
    processBatch now (Except.ok outputs) batch m =
      ((List.enumFrom 0 (batch.zip outputs)).map (fun p =>
          { p.2.1 with future := FutureState.resolved ⟨p.2.2, p.2.1.request_id, (now p.1 - p.2.1.enqueue_ts) * 1000, batch.length⟩ }),
       { m with requests := m.requests ++ (List.enumFrom 0 (batch.zip outputs)).map (fun p =>
          ("success", ((now p.1 - p.2.1.enqueue_ts) * 1000) / 1000)) }) := by
  have h := goFire_pending_eq now batch.length batch 0 outputs hp
  simp [processBatch, h, hlen]

/-- Witness for C1 at a concrete two-request batch. -/
theorem scheduler_success_delivery_witness :
    (∀ r ∈ [reqA, reqB], r.future = FutureState.pending) ∧
    [100, 101].length = [reqA, reqB].length ∧
    processBatch clock10 (Except.ok [100, 101]) [reqA, reqB] emptyMetrics =
      ((List.enumFrom 0 ([reqA, reqB].zip [100, 101])).map (fun p =>
          { p.2.1 with future := FutureState.resolved ⟨p.2.2, p.2.1.request_id, (clock10 p.1 - p.2.1.enqueue_ts) * 1000, [reqA, reqB].length⟩ }),
       { emptyMetrics with requests := emptyMetrics.requests ++ (List.enumFrom 0 ([reqA, reqB].zip [100, 101])).map (fun p =>
          ("success", ((clock10 p.1 - p.2.1.enqueue_ts) * 1000) / 1000)) }) :=
  ⟨by decide, by decide,
   scheduler_success_delivery clock10 [reqA, reqB] [100, 101] emptyMetrics
     (by decide) (by decide)⟩

/-- C2 counterexample: encode returns 1 output for a batch of 2 pending
requests. The code zips positionally and performs no length check: the
second request's signal is left pending (never fired), no error is recorded,
and in particular the second request is not failed with any error — the
claim "every request in the batch is failed with a ProcessingError" is
false at this input. -/
theorem mismatch_leaves_request_unfired :
    ((processBatch clock10 (Except.ok [100]) [reqA, reqB] emptyMetrics).1.getD 1 reqA).future = FutureState.pending ∧
    (processBatch clock10 (Except.ok [100]) [reqA, reqB] emptyMetrics).2.errors = [] ∧
    ¬ ∃ e : PyErr, ((processBatch clock10 (Except.ok [100]) [reqA, reqB] emptyMetrics).1.getD 1 reqA).future = FutureState.failed e := by
  refine ⟨by decide, by decide, ?_⟩
  rintro ⟨e, he⟩
  rw [show ((processBatch clock10 (Except.ok [100]) [reqA, reqB] emptyMetrics).1.getD 1 reqA).future = FutureState.pending from by decide] at he
  exact FutureState.noConfusion he

/-- C2 (amended): a length mismatch is not detected and is not a batch
failure. The scheduler zips outputs with requests positionally: the first
`min(len(outputs), len(batch))` requests are resolved (each Response still
carrying `batch_size = len(batch)`) with one success record each, requests
beyond the outputs are left untouched (their signals never fire), extra
outputs are ignored, and no error is recorded. -/
theorem mismatch_zip_semantics (now : Nat → ℚ) (batch : List InferenceRequest)
    (outputs : List Nat) (m : Metrics)
    (hp : ∀ r ∈ batch, r.future = FutureState.pending) :
    processBatch now (Except.ok outputs) batch m =
      ((List.enumFrom 0 (batch.zip outputs)).map (fun p =>
          { p.2.1 with future := FutureState.resolved ⟨p.2.2, p.2.1.request_id, (now p.1 - p.2.1.enqueue_ts) * 1000, batch.length⟩ }) ++
        batch.drop outputs.length,
       { m with requests := m.requests ++ (List.enumFrom 0 (batch.zip outputs)).map (fun p =>
          ("success", ((now p.1 - p.2.1.enqueue_ts) * 1000) / 1000)) }) := by
  simp [processBatch, goFire_pending_eq now batch.length batch 0 outputs hp]

/-- Witness for the amended C2 at a concrete mismatched input (2 requests,
1 output). -/
theorem mismatch_zip_semantics_witness :
    (∀ r ∈ [reqA, reqB], r.future = FutureState.pending) ∧
    processBatch clock10 (Except.ok [100]) [reqA, reqB] emptyMetrics =
      ((List.enumFrom 0 ([reqA, reqB].zip [100])).map (fun p =>
          { p.2.1 with future := FutureState.resolved ⟨p.2.2, p.2.1.request_id, (clock10 p.1 - p.2.1.enqueue_ts) * 1000, [reqA, reqB].length⟩ }) ++
        [reqA, reqB].drop [100].length,
       { emptyMetrics with requests := emptyMetrics.requests ++ (List.enumFrom 0 ([reqA, reqB].zip [100])).map (fun p =>
          ("success", ((clock10 p.1 - p.2.1.enqueue_ts) * 1000) / 1000)) }) :=
  ⟨by decide,
   mismatch_zip_semantics clock10 [reqA, reqB] [100] emptyMetrics (by decide)⟩

/-- C3 counterexample: encode raises on a batch of 2 pending requests. The
`record_error("processing_error")` call sits inside the per-request loop, so
the error counter is incremented twice — not "exactly once for the whole
batch" — and no `error` request is recorded for any item (`record_request`
is never called on this path). -/
theorem batch_failure_error_count :
    (processBatch clock10 (Except.error (PyErr.encodeError 7)) [reqA, reqB] emptyMetrics).2.errors = ["processing_error", "processing_error"] ∧
    ¬ (processBatch clock10 (Except.error (PyErr.encodeError 7)) [reqA, reqB] emptyMetrics).2.errors.length = 1 ∧
    (processBatch clock10 (Except.error (PyErr.encodeError 7)) [reqA, reqB] emptyMetrics).2.requests = [] := by
  refine ⟨by decide, by decide, by decide⟩

/-- C3 (amended): when encode raises, the scheduler fires the completion
signal of every request whose future is not yet done with the cause, leaves
the done ones untouched, increments the `processing_error` counter once per
not-yet-done request (not once per batch), records no per-item `error`
requests, and does not retry (the handler runs once). -/
theorem scheduler_failure_fanout (now : Nat → ℚ) (e : PyErr)
    (batch : List InferenceRequest) (m : Metrics) :
    processBatch now (Except.error e) batch m =
      (batch.map (fun r => if r.future.done then r else { r with future := FutureState.failed e }),
       { m with errors := m.errors ++ List.replicate (batch.countP (fun r => !r.future.done)) "processing_error" }) := by
  simp [processBatch, failBatch_eq]

/-- C4: in a batch of three requests whose encode call succeeds with three
outputs, the middle request was abandoned (its waiter timed out, cancelling
the future). The success loop calls `set_result` without a `done()` check,
so `asyncio.InvalidStateError` is raised at the abandoned request and caught
by the batch-failure handler: the request after the abandoned one receives
`ProcessingError(InvalidStateError)` instead of its Response, and a
`processing_error` is recorded — the abandoned completion is not discarded
harmlessly. -/
theorem abandoned_completion_poisons_batch :
    ((processBatch clock10 (Except.ok [100, 101, 102]) [reqA, reqAbandoned, reqC] emptyMetrics).1.getD 0 reqA).future = FutureState.resolved ⟨100, 1, 10000, 3⟩ ∧
    ((processBatch clock10 (Except.ok [100, 101, 102]) [reqA, reqAbandoned, reqC] emptyMetrics).1.getD 1 reqA).future = FutureState.cancelled ∧
    ((processBatch clock10 (Except.ok [100, 101, 102]) [reqA, reqAbandoned, reqC] emptyMetrics).1.getD 2 reqA).future = FutureState.failed PyErr.invalidState ∧
    (processBatch clock10 (Except.ok [100, 101, 102]) [reqA, reqAbandoned, reqC] emptyMetrics).2.errors = ["processing_error"] := by
  refine ⟨?_, by decide, by decide, by decide⟩
  norm_num [processBatch, goFire, failBatch, reqA, reqAbandoned, reqC, clock10,
    emptyMetrics, FutureState.done]

/-- A model capability declaring non-positive batch values. -/
def badModel : ModelCapability := ⟨0, -(3 / 1000)⟩

/-- A model capability declaring positive batch values. -/
def goodModel : ModelCapability := ⟨8, 5 / 1000⟩

/-- C5 counterexample: a model returning `batch_size() = 0` and
`batch_wait_s() = -0.003`. `ModelWorker.__init__` adopts both values
unconditionally — the configured defaults are not substituted for
non-positive model values, and `B ≥ 1` fails after initialisation. -/
theorem nonpositive_model_values_adopted :
    (ModelWorker.initBatchConfig defaultModelsConfig badModel).batch_size = 0 ∧
    (ModelWorker.initBatchConfig defaultModelsConfig badModel).batch_wait = -(3 / 1000) ∧
    ¬ ((ModelWorker.initBatchConfig defaultModelsConfig badModel).batch_size = 16 ∧
       1 ≤ (ModelWorker.initBatchConfig defaultModelsConfig badModel).batch_size) := by
  refine ⟨by decide, ?_, by decide⟩
  norm_num [ModelWorker.initBatchConfig, badModel]

/-- C5 (amended): the worker adopts the model-declared `batch_size` and
`batch_wait_s` unconditionally; the configured defaults (16, 0.003) are only
the initial values before model load and are never substituted afterwards.
Consequently `B ≥ 1` and `D ≥ 0` hold exactly when the model declares such
values. -/
theorem initBatchConfig_adopts (cfg : ModelsConfig) (model : ModelCapability)
    (h1 : 1 ≤ model.batch_size) (h2 : 0 ≤ model.batch_wait_s) :
    (ModelWorker.initBatchConfig cfg model).batch_size = model.batch_size ∧
    (ModelWorker.initBatchConfig cfg model).batch_wait = model.batch_wait_s ∧
    1 ≤ (ModelWorker.initBatchConfig cfg model).batch_size ∧
    0 ≤ (ModelWorker.initBatchConfig cfg model).batch_wait :=
  ⟨rfl, rfl, h1, h2⟩

/-- Witness for the amended C5 at a model declaring (8, 0.005). -/
theorem initBatchConfig_adopts_witness :
    1 ≤ goodModel.batch_size ∧
    0 ≤ goodModel.batch_wait_s ∧
    ((ModelWorker.initBatchConfig defaultModelsConfig goodModel).batch_size = goodModel.batch_size ∧
     (ModelWorker.initBatchConfig defaultModelsConfig goodModel).batch_wait = goodModel.batch_wait_s ∧
     1 ≤ (ModelWorker.initBatchConfig defaultModelsConfig goodModel).batch_size ∧
     0 ≤ (ModelWorker.initBatchConfig defaultModelsConfig goodModel).batch_wait) :=
  ⟨by decide, by norm_num [goodModel],
   initBatchConfig_adopts defaultModelsConfig goodModel (by decide)
     (by norm_num [goodModel])⟩

/-- C6: on a bounded queue (capacity > 0) respecting the depth invariant,
`put` at depth = capacity raises `QueueFullError` carrying the current
depth, increments the rejection counter and changes nothing else; otherwise
it appends the request and increments the admitted counter. The rejection
counter is non-decreasing and increments iff `put` is called at
depth = capacity. -/
theorem put_admission (q : RequestQueue) (r : InferenceRequest)
    (hpos : 0 < q.maxsize) (hinv : (q.items.length : Int) ≤ q.maxsize) :
    ((q.items.length : Int) = q.maxsize →
      (q.put r).2 = some ⟨q.items.length⟩ ∧
      (q.put r).1.items = q.items ∧
      (q.put r).1.total_requests = q.total_requests ∧
      (q.put r).1.total_rejections = q.total_rejections + 1) ∧
    ((q.items.length : Int) ≠ q.maxsize →
      (q.put r).2 = none ∧
      (q.put r).1.items = q.items ++ [r] ∧
      (q.put r).1.total_requests = q.total_requests + 1 ∧
      (q.put r).1.total_rejections = q.total_rejections) ∧
    q.total_rejections ≤ (q.put r).1.total_rejections ∧
    ((q.put r).1.total_rejections ≠ q.total_rejections ↔
      (q.items.length : Int) = q.maxsize) := by
  have h0 : ¬ q.maxsize ≤ 0 := by omega
  by_cases hfull : (q.items.length : Int) = q.maxsize
  · have hf : q.full = true := by
      simp only [RequestQueue.full, h0, if_false, decide_eq_true_eq]
      omega
    simp [RequestQueue.put, hf, RequestQueue.depth, hfull]
  · have hf : q.full = false := by
      simp only [RequestQueue.full, h0, if_false, decide_eq_false_iff_not]
      omega
    simp [RequestQueue.put, hf, hfull]

/-- A full bounded queue: capacity 2 holding 2 requests. -/
def qFull2 : RequestQueue := ⟨2, [reqA, reqB], 2, 0, 0⟩

/-- Witness for C6 at a full queue of capacity 2. -/
theorem put_admission_witness :
    0 < qFull2.maxsize ∧
    (qFull2.items.length : Int) ≤ qFull2.maxsize ∧
    (((qFull2.items.length : Int) = qFull2.maxsize →
      (qFull2.put reqC).2 = some ⟨qFull2.items.length⟩ ∧
      (qFull2.put reqC).1.items = qFull2.items ∧
      (qFull2.put reqC).1.total_requests = qFull2.total_requests ∧
      (qFull2.put reqC).1.total_rejections = qFull2.total_rejections + 1) ∧
    ((qFull2.items.length : Int) ≠ qFull2.maxsize →
      (qFull2.put reqC).2 = none ∧
      (qFull2.put reqC).1.items = qFull2.items ++ [reqC] ∧
      (qFull2.put reqC).1.total_requests = qFull2.total_requests + 1 ∧
      (qFull2.put reqC).1.total_rejections = qFull2.total_rejections) ∧
    qFull2.total_rejections ≤ (qFull2.put reqC).1.total_rejections ∧
    ((qFull2.put reqC).1.total_rejections ≠ qFull2.total_rejections ↔
      (qFull2.items.length : Int) = qFull2.maxsize)) :=
  ⟨by decide, by decide, put_admission qFull2 reqC (by decide) (by decide)⟩

/-- C7: `get_batch` returns an empty list iff the wait elapsed with the
queue empty (no first request available and none arriving), and in exactly
that case the drain-timeouts counter increments by exactly 1. -/
theorem drain_timeout_iff (q : RequestQueue) (bs : Int) (t : ℚ)
    (arrival : Option InferenceRequest) :
    ((q.get_batch bs t arrival).2 = [] ↔ q.items = [] ∧ arrival = none) ∧
    (q.get_batch bs t arrival).1.total_timeouts =
      q.total_timeouts + if q.items = [] ∧ arrival = none then 1 else 0 := by
  rcases hq : q.items with _ | ⟨r, rest⟩ <;>
    rcases arrival with _ | a <;>
      simp [RequestQueue.get_batch, hq]

/-- A queue of capacity 10 holding three requests in admission order. -/
def qThree : RequestQueue := ⟨10, [reqA, reqB, reqC], 3, 0, 0⟩

/-- C8 counterexample: with 3 requests queued and `maxBatch = 2`, a drain
returns 2 requests, never `maxBatch + 1 = 3`: the fill loop runs while
`len(batch) < batch_size`, so the first request counts toward the limit and
at most `maxBatch − 1` additional items are pulled. -/
theorem drain_batch_size_cap :
    (qThree.get_batch 2 1 none).2.length = 2 ∧
    ¬ (qThree.get_batch 2 1 none).2.length = 3 := by
  refine ⟨by decide, by decide⟩

/-- C8 (amended): a drain that obtains a first request pulls up to
`maxBatch − 1` additional items, so with the queue non-empty and
`maxBatch ≥ 1` it returns exactly `min(maxBatch, depth)` requests, and the
batch is the prefix of the queue in admission order (batch ++ remaining =
original queue contents). -/
theorem drain_greedy_fill (q : RequestQueue) (bs : Int) (t : ℚ)
    (arrival : Option InferenceRequest) (hbs : 1 ≤ bs) (hne : q.items ≠ []) :
    (q.get_batch bs t arrival).2.length = min bs.toNat q.items.length ∧
    (q.get_batch bs t arrival).2 ++ (q.get_batch bs t arrival).1.items = q.items := by
  obtain ⟨r, rest, hq⟩ := List.exists_cons_of_ne_nil hne
  refine ⟨?_, ?_⟩
  · simp only [RequestQueue.get_batch, hq, List.length_cons, List.length_take]
    omega
  · simp only [RequestQueue.get_batch, hq, List.cons_append, List.take_append_drop]

/-- Witness for the amended C8: 3 requests queued, `maxBatch = 2`. -/
theorem drain_greedy_fill_witness :
    1 ≤ (2 : Int) ∧
    qThree.items ≠ [] ∧
    ((qThree.get_batch 2 1 none).2.length = min (2 : Int).toNat qThree.items.length ∧
     (qThree.get_batch 2 1 none).2 ++ (qThree.get_batch 2 1 none).1.items = qThree.items) :=
  ⟨by decide, by decide, drain_greedy_fill qThree 2 1 none (by decide) (by decide)⟩

/-- C9: whenever a first request is available or arrives before the timeout,
`get_batch` returns a non-empty list even for `batch_size ≤ 0`; and for
every `batch_size ≤ 1` (including zero and negative values) it returns
exactly one request, because the fill loop `while len(batch) < batch_size`
never runs. -/
theorem drain_first_item_guarantee (q : RequestQueue) (bs : Int) (t : ℚ)
    (arrival : Option InferenceRequest)
    (hfirst : ¬ (q.items = [] ∧ arrival = none)) :
    (q.get_batch bs t arrival).2 ≠ [] ∧
    (bs ≤ 1 → (q.get_batch bs t arrival).2.length = 1) := by
  rcases hq : q.items with _ | ⟨r, rest⟩
  · rcases arrival with _ | a
    · exact absurd ⟨hq, rfl⟩ hfirst
    · simp [RequestQueue.get_batch, hq]
  · refine ⟨?_, fun hbs => ?_⟩
    · simp [RequestQueue.get_batch, hq]
    · have he : (bs - 1).toNat = 0 := by omega
      simp [RequestQueue.get_batch, hq, he]

/-- An empty queue of capacity 10. -/
def qEmpty : RequestQueue := ⟨10, [], 0, 0, 0⟩

/-- Witness for C9: empty queue, an arrival during the wait, batch_size 0. -/
theorem drain_first_item_guarantee_witness :
    ¬ (qEmpty.items = [] ∧ (some reqA) = none) ∧
    ((qEmpty.get_batch 0 1 (some reqA)).2 ≠ [] ∧
     ((0 : Int) ≤ 1 → (qEmpty.get_batch 0 1 (some reqA)).2.length = 1)) :=
  ⟨by decide, drain_first_item_guarantee qEmpty 0 1 (some reqA) (by decide)⟩

/-- C10: a `RequestQueue` built with `maxsize = 0` wraps an unbounded
`asyncio.Queue`: `put` never raises `QueueFullError` regardless of how many
requests are already enqueued (depth is not bounded by the stated capacity),
and `get_metrics` reports `utilization = 0` at every depth. -/
theorem unbounded_queue_zero_maxsize (q : RequestQueue) (r : InferenceRequest)
    (h : q.maxsize = 0) :
    (q.put r).2 = none ∧
    (q.put r).1.items = q.items ++ [r] ∧
    (q.put r).1.total_requests = q.total_requests + 1 ∧
    q.get_metrics.utilization = 0 := by
  have hf : q.full = false := by simp [RequestQueue.full, h]
  simp [RequestQueue.put, hf, RequestQueue.get_metrics, h]

/-- An unbounded queue (`maxsize = 0`) already holding three requests,
i.e. deeper than its stated capacity. -/
def qUnbounded : RequestQueue := ⟨0, [reqA, reqB, reqC], 3, 0, 0⟩

/-- Witness for C10 at depth 3 with `maxsize = 0`. -/
theorem unbounded_queue_zero_maxsize_witness :
    qUnbounded.maxsize = 0 ∧
    ((qUnbounded.put reqC).2 = none ∧
     (qUnbounded.put reqC).1.items = qUnbounded.items ++ [reqC] ∧
     (qUnbounded.put reqC).1.total_requests = qUnbounded.total_requests + 1 ∧
     qUnbounded.get_metrics.utilization = 0) :=
  ⟨by decide, unbounded_queue_zero_maxsize qUnbounded reqC (by decide)⟩

end BoringServer
